import Mathlib

/-!
Verification of the helm-exporter collector (src/main.go).

The Go program keeps a concurrent map `clients` from namespace name to a
helm `action.Configuration`, populated by a namespace informer (dynamic
mode) or by one-shot `connect` calls (static mode).  On every Prometheus
scrape, `Collect` iterates a snapshot of that map, lists the releases of
each client, and emits up to three metric samples per release.

The shallow embedding below models:
* a release as the record of fields `Collect` reads from a helm release;
* the registry as an association list with `cmapSet` / `cmapRemove` /
  `cmapGet` mirroring `clients.Set` / `clients.Remove` / lookup, keys
  kept unique by construction exactly as a map does;
* the per-namespace listing call `action.NewList(client).Run()` as an
  abstract function `run : C → Except String (List Release)`;
* the external chart-registry lookup as `lookup : String → Option String`
  (`none` = failure / not found), since the `registries` package is not
  part of this repository;
* `Collect` as the pure function `collect` over those inputs, one sample
  being a metric name, a numeric value and an ordered list of label
  values, exactly as built at src/main.go lines 179-219.

Machine floats never matter here: every emitted value (`item.Version`,
the status code, `updated`) is an integer that a float64 represents
exactly, so sample values are modelled as `Int`.
-/

namespace HelmExporter

/-- Flag set of the exporter (src/main.go lines 42-46). -/
structure Flags where
  infoMetric : Bool
  timestampMetric : Bool
  countAllReleasesMetric : Bool
  fetchLatest : Bool
deriving DecidableEq, Repr

/-- The fields of a helm release that `Collect` reads (src/main.go
lines 179-186).  `lastDeployedUnix` is `item.Info.LastDeployed.Unix()`,
i.e. the last-deployed time in epoch seconds; `version` is
`item.Version`, the revision number. -/
structure Release where
  chartName : String
  name : String
  chartVersion : String
  appVersion : String
  lastDeployedUnix : Int
  nsName : String
  statusString : String
  version : Int
deriving DecidableEq, Repr

/-- One emitted Prometheus sample: metric name, numeric value, ordered
label values (src/main.go `prometheus.MustNewConstMetric`). -/
structure MetricSample where
  metricName : String
  value : Int
  labels : List String
deriving DecidableEq, Repr

/-- The fixed status table (src/main.go lines 48-58).  A Go map lookup
with a missing key yields the zero value, hence the catch-all 0. -/
def statusCodeMap (s : String) : Int :=
  match s with
  | "unknown" => 0
  | "deployed" => 1
  | "uninstalled" => 2
  | "superseded" => 3
  | "failed" => -1
  | "uninstalling" => 5
  | "pending-install" => 6
  | "pending-upgrade" => 7
  | "pending-rollback" => 8
  | _ => 0

/-- The keys of `statusCodeMap`. -/
def statusKeys : List String :=
  ["unknown", "deployed", "uninstalled", "superseded", "failed",
   "uninstalling", "pending-install", "pending-upgrade", "pending-rollback"]

/-- Modelled from the spec: `registries.HelmRegistries.GetLatestVersionFromHelm`
lives in the `registries` package, which is not under src/.  Per the spec
(§4.5) it must never raise a fatal error and any failure or not-found
resolves to the empty string, so its outcome is abstracted as an
`Option String` with `none` collapsing to `""`. -/
def GetLatestVersionFromHelm (lookup : String → Option String) (name : String) : String :=
  (lookup name).getD ""

/-- src/main.go lines 100-104: thin wrapper around the registry lookup. -/
def getLatestChartVersionFromHelm (lookup : String → Option String) (name : String) : String :=
  GetLatestVersionFromHelm lookup name

/-- The body of the per-release loop of `Collect` (src/main.go
lines 179-219): the revision-count sample unconditionally, the info
sample when `infoMetric` is set, the timestamp sample when
`timestampMetric` is set. -/
def collectRelease (flags : Flags) (lookup : String → Option String)
    (item : Release) : List MetricSample :=
  let chart := item.chartName
  let releaseName := item.name
  let version := item.chartVersion
  let appVersion := item.appVersion
  let updated := item.lastDeployedUnix * 1000
  let nsName := item.nsName
  let status := statusCodeMap item.statusString
  let latestVersion :=
    if flags.fetchLatest then getLatestChartVersionFromHelm lookup item.chartName else ""
  let helmRevisionsLabelValues := [chart, releaseName, nsName]
  let helmStatsInfoLabelValues :=
    [chart, releaseName, version, appVersion, toString updated, nsName, latestVersion]
  let helmStatsTimestampLabelValues :=
    [chart, releaseName, version, appVersion, toString updated, nsName, latestVersion]
  [{ metricName := "helm_chart_all_releases_total", value := item.version,
     labels := helmRevisionsLabelValues }]
    ++ (if flags.infoMetric = true then
          [{ metricName := "helm_chart_info", value := status,
             labels := helmStatsInfoLabelValues }]
        else [])
    ++ (if flags.timestampMetric = true then
          [{ metricName := "helm_chart_timestamp", value := updated,
             labels := helmStatsTimestampLabelValues }]
        else [])

variable {C : Type}

/-- The per-client part of `Collect` (src/main.go lines 171-177): run the
listing; on error log and contribute nothing, otherwise process every
release. -/
def collectClient (flags : Flags) (lookup : String → Option String)
    (run : C → Except String (List Release)) (client : C) : List MetricSample :=
  match run client with
  | Except.error _ => []
  | Except.ok items => items.flatMap (collectRelease flags lookup)

/-- `Collect` (src/main.go lines 170-222): iterate the registry snapshot
and gather every client's samples. -/
def collect (flags : Flags) (lookup : String → Option String)
    (run : C → Except String (List Release)) (clients : List (String × C)) : List MetricSample :=
  clients.flatMap fun p => collectClient flags lookup run p.2

/-- `clients.Set` of the concurrent map: install or replace the entry for
a key, keeping at most one entry per key. -/
def cmapSet (reg : List (String × C)) (k : String) (v : C) : List (String × C) :=
  (k, v) :: reg.filter fun p => p.1 != k

/-- `clients.Remove`: drop the entry for a key if present. -/
def cmapRemove (reg : List (String × C)) (k : String) : List (String × C) :=
  reg.filter fun p => p.1 != k

/-- Lookup in the registry. -/
def cmapGet (reg : List (String × C)) (k : String) : Option C :=
  (reg.find? fun p => p.1 == k).map fun p => p.2

/-- `connect` (src/main.go lines 110-119): building the action
configuration for a namespace either fails (`none`; a warning is logged
and the registry is untouched) or succeeds and the client is installed
with `clients.Set`. -/
def connect (initResult : Option C) (nsName : String) (reg : List (String × C)) :
    List (String × C) :=
  match initResult with
  | Option.none => reg
  | Option.some actionConfig => cmapSet reg nsName actionConfig

/-- A namespace lifecycle event delivered by the informer. -/
inductive NsEvent where
  | added : String → NsEvent
  | removed : String → NsEvent
deriving DecidableEq, Repr

/-- The informer's event handlers (src/main.go lines 138-150): `AddFunc`
calls `connect` for the namespace, `DeleteFunc` calls `clients.Remove`.
`connectNs` gives the outcome of `actionConfig.Init` for each namespace. -/
def handleEvent (connectNs : String → Option C) (reg : List (String × C)) :
    NsEvent → List (String × C)
  | NsEvent.added n => connect (connectNs n) n reg
  | NsEvent.removed n => cmapRemove reg n

/-- Listings are namespace-consistent: the releases returned for a
registry entry live in that entry's namespace (the helm list action is
scoped to the namespace its client was built for). -/
def NsConsistent (run : C → Except String (List Release))
    (reg : List (String × C)) : Prop :=
  ∀ p ∈ reg, ∀ items, run p.2 = Except.ok items → ∀ r ∈ items, r.nsName = p.1

/-- The namespace label of a sample: label index 2 for the revision-count
metric, label index 5 for the info and timestamp metrics. -/
def sampleNs (s : MetricSample) : String :=
  if s.metricName = "helm_chart_all_releases_total" then s.labels.getD 2 ""
  else s.labels.getD 5 ""

/-- Revision-count sample carrying a given namespace label. -/
def isRevSampleIn (n : String) (s : MetricSample) : Bool :=
  s.metricName == "helm_chart_all_releases_total" && s.labels.getD 2 "" == n

/-- Blank out the latestVersion label (index 6; the revision-count sample
has only three labels and is unchanged). -/
def stripLatest (s : MetricSample) : MetricSample :=
  { s with labels := s.labels.set 6 "" }

/-- The revision-count sample `Collect` builds for a release
(src/main.go lines 196-201). -/
def revSample (item : Release) : MetricSample :=
  { metricName := "helm_chart_all_releases_total", value := item.version,
    labels := [item.chartName, item.name, item.nsName] }

/-- The shared label-value list of the info and timestamp samples
(src/main.go lines 194-195). -/
def infoLabels (flags : Flags) (lookup : String → Option String)
    (item : Release) : List String :=
  [item.chartName, item.name, item.chartVersion, item.appVersion,
   toString (item.lastDeployedUnix * 1000), item.nsName,
   if flags.fetchLatest then getLatestChartVersionFromHelm lookup item.chartName else ""]

/-- The info sample `Collect` builds for a release (src/main.go
lines 203-210). -/
def infoSample (flags : Flags) (lookup : String → Option String)
    (item : Release) : MetricSample :=
  { metricName := "helm_chart_info", value := statusCodeMap item.statusString,
    labels := infoLabels flags lookup item }

/-- The timestamp sample `Collect` builds for a release (src/main.go
lines 211-218). -/
def tsSample (flags : Flags) (lookup : String → Option String)
    (item : Release) : MetricSample :=
  { metricName := "helm_chart_timestamp", value := item.lastDeployedUnix * 1000,
    labels := infoLabels flags lookup item }

/-- A concrete release used for witnesses and counterexamples. -/
def sampleRel : Release :=
  { chartName := "nginx", name := "web", chartVersion := "1.2.0",
    appVersion := "1.21", lastDeployedUnix := 1, nsName := "prod",
    statusString := "deployed", version := 3 }

/-- All features on, as by default. -/
def allFlags : Flags :=
  { infoMetric := true, timestampMetric := true,
    countAllReleasesMetric := true, fetchLatest := true }

/-- The same release in state failed. -/
def relFailed : Release :=
  { sampleRel with statusString := "failed" }

/-- A chart-registry lookup that always fails. -/
def lookupNone : String → Option String := fun _ => Option.none

/-- A concrete two-namespace registry (clients are plain numbers here). -/
def wReg : List (String × Nat) := [("bad", 0), ("prod", 1)]

/-- Listing outcomes over `wReg`: the client of "bad" fails, the client
of "prod" returns one release. -/
def wRun : Nat → Except String (List Release) :=
  fun c => if c = 1 then Except.ok [sampleRel] else Except.error "boom"

/-- Same as `wRun` except the failing client now succeeds with an empty
listing. -/
def wRunOk : Nat → Except String (List Release) :=
  fun c => if c = 0 then Except.ok [] else wRun c

example :
    collectRelease allFlags (fun _ => Option.none) sampleRel =
      [{ metricName := "helm_chart_all_releases_total", value := 3,
         labels := ["nginx", "web", "prod"] },
       { metricName := "helm_chart_info", value := 1,
         labels := ["nginx", "web", "1.2.0", "1.21", "1000", "prod", ""] },
       { metricName := "helm_chart_timestamp", value := 1000,
         labels := ["nginx", "web", "1.2.0", "1.21", "1000", "prod", ""] }] := by
  decide

example : statusCodeMap "failed" = -1 := by decide

example : statusCodeMap "bogus" = 0 := by decide

/-! ## Per-release lemmas -/

theorem collectRelease_eq (flags : Flags) (lookup : String → Option String)
    (item : Release) :
    collectRelease flags lookup item =
      [revSample item]
        ++ (if flags.infoMetric = true then [infoSample flags lookup item] else [])
        ++ (if flags.timestampMetric = true then [tsSample flags lookup item] else []) := rfl

theorem mem_collectRelease_iff (flags : Flags) (lookup : String → Option String)
    (item : Release) (s : MetricSample) :
    s ∈ collectRelease flags lookup item ↔
      s = revSample item ∨
        (flags.infoMetric = true ∧ s = infoSample flags lookup item) ∨
        (flags.timestampMetric = true ∧ s = tsSample flags lookup item) := by
  rcases flags with ⟨im, tm, cm, fl⟩
  cases im <;> cases tm <;>
    simp [collectRelease_eq, List.mem_append, List.mem_cons, or_assoc]

theorem sampleNs_revSample (item : Release) : sampleNs (revSample item) = item.nsName := by
  simp [sampleNs, revSample]

theorem sampleNs_infoSample (flags : Flags) (lookup : String → Option String)
    (item : Release) : sampleNs (infoSample flags lookup item) = item.nsName := by
  simp [sampleNs, infoSample, infoLabels]

theorem sampleNs_tsSample (flags : Flags) (lookup : String → Option String)
    (item : Release) : sampleNs (tsSample flags lookup item) = item.nsName := by
  simp [sampleNs, tsSample, infoLabels]

theorem sampleNs_of_mem_collectRelease (flags : Flags) (lookup : String → Option String)
    (item : Release) (s : MetricSample) (hs : s ∈ collectRelease flags lookup item) :
    sampleNs s = item.nsName := by
  rcases (mem_collectRelease_iff flags lookup item s).1 hs with h | ⟨_, h⟩ | ⟨_, h⟩ <;>
    subst h
  · exact sampleNs_revSample item
  · exact sampleNs_infoSample flags lookup item
  · exact sampleNs_tsSample flags lookup item

theorem rev_shape_of_mem_collectRelease (flags : Flags) (lookup : String → Option String)
    (item : Release) (s : MetricSample) (hs : s ∈ collectRelease flags lookup item)
    (hname : s.metricName = "helm_chart_all_releases_total") :
    s.value = item.version ∧ s.labels = [item.chartName, item.name, item.nsName] := by
  rcases (mem_collectRelease_iff flags lookup item s).1 hs with h | ⟨_, h⟩ | ⟨_, h⟩ <;>
    subst h
  · exact ⟨rfl, rfl⟩
  · simp [infoSample] at hname
  · simp [tsSample] at hname

theorem countP_rev_collectRelease (flags : Flags) (lookup : String → Option String)
    (item : Release) (n : String) :
    (collectRelease flags lookup item).countP (isRevSampleIn n) =
      if item.nsName = n then 1 else 0 := by
  rcases flags with ⟨im, tm, cm, fl⟩
  cases im <;> cases tm <;>
    by_cases h : item.nsName = n <;>
      simp [collectRelease_eq, isRevSampleIn, revSample, infoSample, tsSample,
        infoLabels, List.countP_append, List.countP_cons, h]

theorem ts_shape_of_mem_collectRelease (flags : Flags) (lookup : String → Option String)
    (item : Release) (s : MetricSample) (hs : s ∈ collectRelease flags lookup item)
    (hname : s.metricName = "helm_chart_timestamp") :
    s.value = item.lastDeployedUnix * 1000 := by
  rcases (mem_collectRelease_iff flags lookup item s).1 hs with h | ⟨_, h⟩ | ⟨_, h⟩ <;>
    subst h
  · simp [revSample] at hname
  · simp [infoSample] at hname
  · rfl

theorem ts_mem_collectRelease (flags : Flags) (lookup : String → Option String)
    (item : Release) (h : flags.timestampMetric = true) :
    tsSample flags lookup item ∈ collectRelease flags lookup item := by
  exact (mem_collectRelease_iff flags lookup item _).2 (Or.inr (Or.inr ⟨h, rfl⟩))

theorem info_shape_of_mem_collectRelease (flags : Flags) (lookup : String → Option String)
    (item : Release) (s : MetricSample) (hs : s ∈ collectRelease flags lookup item)
    (hname : s.metricName = "helm_chart_info") :
    s.value = statusCodeMap item.statusString := by
  rcases (mem_collectRelease_iff flags lookup item s).1 hs with h | ⟨_, h⟩ | ⟨_, h⟩ <;>
    subst h
  · simp [revSample] at hname
  · rfl
  · simp [tsSample] at hname

theorem info_mem_collectRelease (flags : Flags) (lookup : String → Option String)
    (item : Release) (h : flags.infoMetric = true) :
    infoSample flags lookup item ∈ collectRelease flags lookup item := by
  exact (mem_collectRelease_iff flags lookup item _).2 (Or.inr (Or.inl ⟨h, rfl⟩))

theorem rev_mem_collectRelease (flags : Flags) (lookup : String → Option String)
    (item : Release) : revSample item ∈ collectRelease flags lookup item := by
  exact (mem_collectRelease_iff flags lookup item _).2 (Or.inl rfl)

theorem collectRelease_ne_nil (flags : Flags) (lookup : String → Option String)
    (item : Release) : collectRelease flags lookup item ≠ [] := by
  intro h
  exact absurd (h ▸ rev_mem_collectRelease flags lookup item) (List.not_mem_nil _)

theorem countP_info_collectRelease_off (flags : Flags) (lookup : String → Option String)
    (item : Release) (h : flags.infoMetric = false) :
    (collectRelease flags lookup item).countP
      (fun s => s.metricName == "helm_chart_info") = 0 := by
  rcases flags with ⟨im, tm, cm, fl⟩
  cases im
  · cases tm <;>
      simp [collectRelease_eq, revSample, tsSample, infoLabels,
        List.countP_append, List.countP_cons]
  · cases h

theorem collectRelease_info_filter (flags : Flags) (lookup : String → Option String)
    (item : Release) :
    collectRelease { flags with infoMetric := false } lookup item =
      (collectRelease { flags with infoMetric := true } lookup item).filter
        (fun s => s.metricName != "helm_chart_info") := by
  rcases flags with ⟨im, tm, cm, fl⟩
  cases tm <;>
    simp [collectRelease_eq, revSample, infoSample, tsSample, infoLabels,
      List.filter_append, List.filter]

theorem map_stripLatest_collectRelease (flags : Flags)
    (lookup lookup₂ : String → Option String) (item : Release) :
    (collectRelease flags lookup item).map stripLatest =
      (collectRelease flags lookup₂ item).map stripLatest := by
  rcases flags with ⟨im, tm, cm, fl⟩
  cases im <;> cases tm <;> cases fl <;> rfl

theorem map_name_collectRelease (flags : Flags)
    (lookup lookup₂ : String → Option String) (item : Release) :
    (collectRelease flags lookup item).map (fun s => s.metricName) =
      (collectRelease flags lookup₂ item).map (fun s => s.metricName) := by
  rcases flags with ⟨im, tm, cm, fl⟩
  cases im <;> cases tm <;> cases fl <;> rfl

theorem map_value_collectRelease (flags : Flags)
    (lookup lookup₂ : String → Option String) (item : Release) :
    (collectRelease flags lookup item).map (fun s => s.value) =
      (collectRelease flags lookup₂ item).map (fun s => s.value) := by
  rcases flags with ⟨im, tm, cm, fl⟩
  cases im <;> cases tm <;> cases fl <;> rfl

theorem countP_latest_collectRelease (flags : Flags) (lookup : String → Option String)
    (item : Release)
    (h : flags.fetchLatest = false ∨ lookup item.chartName = Option.none) :
    (collectRelease flags lookup item).countP
      (fun s => s.labels.getD 6 "" != "") = 0 := by
  have hlv : (if flags.fetchLatest then
      getLatestChartVersionFromHelm lookup item.chartName else "") = "" := by
    rcases h with h | h
    · simp [h]
    · simp [getLatestChartVersionFromHelm, GetLatestVersionFromHelm, h]
  rcases flags with ⟨im, tm, cm, fl⟩
  cases im <;> cases tm <;>
    simp_all [collectRelease_eq, revSample, infoSample, tsSample, infoLabels,
      List.countP_append, List.countP_cons, List.getD]

/-! ## Collect-level lemmas -/

theorem collect_cons (flags : Flags) (lookup : String → Option String)
    (run : C → Except String (List Release)) (p : String × C)
    (rest : List (String × C)) :
    collect flags lookup run (p :: rest) =
      collectClient flags lookup run p.2 ++ collect flags lookup run rest := by
  simp [collect, List.flatMap_cons]

theorem mem_collect_iff (flags : Flags) (lookup : String → Option String)
    (run : C → Except String (List Release)) (reg : List (String × C))
    (s : MetricSample) :
    s ∈ collect flags lookup run reg ↔
      ∃ p ∈ reg, s ∈ collectClient flags lookup run p.2 := by
  simp [collect, List.mem_flatMap]

theorem mem_collectClient_iff (flags : Flags) (lookup : String → Option String)
    (run : C → Except String (List Release)) (c : C) (s : MetricSample) :
    s ∈ collectClient flags lookup run c ↔
      ∃ items, run c = Except.ok items ∧ ∃ r ∈ items, s ∈ collectRelease flags lookup r := by
  unfold collectClient
  cases hr : run c with
  | error e => simp
  | ok items => simp [List.mem_flatMap]

theorem nsConsistent_of_cons (run : C → Except String (List Release))
    (p : String × C) (rest : List (String × C))
    (h : NsConsistent run (p :: rest)) : NsConsistent run rest :=
  fun q hq => h q (List.mem_cons_of_mem _ hq)

theorem sampleNs_of_mem_collect (flags : Flags) (lookup : String → Option String)
    (run : C → Except String (List Release)) (reg : List (String × C))
    (s : MetricSample) (hcons : NsConsistent run reg)
    (hs : s ∈ collect flags lookup run reg) :
    ∃ p ∈ reg, sampleNs s = p.1 := by
  rcases (mem_collect_iff flags lookup run reg s).1 hs with ⟨p, hp, hsc⟩
  rcases (mem_collectClient_iff flags lookup run p.2 s).1 hsc with ⟨items, hrun, r, hr, hsr⟩
  refine ⟨p, hp, ?_⟩
  rw [sampleNs_of_mem_collectRelease flags lookup r s hsr, hcons p hp items hrun r hr]

theorem countP_ns_collect_zero (flags : Flags) (lookup : String → Option String)
    (run : C → Except String (List Release)) (reg : List (String × C)) (n : String)
    (hcons : NsConsistent run reg) (hk : ∀ p ∈ reg, p.1 ≠ n) :
    (collect flags lookup run reg).countP (fun s => sampleNs s == n) = 0 := by
  rw [List.countP_eq_zero]
  intro s hs
  rcases sampleNs_of_mem_collect flags lookup run reg s hcons hs with ⟨p, hp, hns⟩
  simp only [beq_iff_eq, hns]
  exact hk p hp

theorem isRev_imp_sampleNs (s : MetricSample) (n : String)
    (h : isRevSampleIn n s = true) : sampleNs s = n := by
  simp only [isRevSampleIn, Bool.and_eq_true, beq_iff_eq] at h
  unfold sampleNs
  rw [if_pos h.1]
  exact h.2

theorem countP_rev_flatMap (flags : Flags) (lookup : String → Option String)
    (n : String) :
    ∀ items : List Release, (∀ r ∈ items, r.nsName = n) →
      (items.flatMap (collectRelease flags lookup)).countP (isRevSampleIn n) =
        items.length := by
  intro items
  induction items with
  | nil => intro _; rfl
  | cons r rest ih =>
    intro h
    rw [List.flatMap_cons, List.countP_append, countP_rev_collectRelease,
      ih (fun x hx => h x (List.mem_cons_of_mem _ hx))]
    simp [h r (List.mem_cons_self _ _)]
    omega

theorem countP_rev_collectClient (flags : Flags) (lookup : String → Option String)
    (run : C → Except String (List Release)) (c : C) (n : String)
    (items : List Release) (hrun : run c = Except.ok items)
    (hns : ∀ r ∈ items, r.nsName = n) :
    (collectClient flags lookup run c).countP (isRevSampleIn n) = items.length := by
  unfold collectClient
  rw [hrun]
  exact countP_rev_flatMap flags lookup n items hns

theorem countP_rev_client_zero (flags : Flags) (lookup : String → Option String)
    (run : C → Except String (List Release)) (p : String × C) (n : String)
    (hcons : ∀ items, run p.2 = Except.ok items → ∀ r ∈ items, r.nsName = p.1)
    (hne : p.1 ≠ n) :
    (collectClient flags lookup run p.2).countP (isRevSampleIn n) = 0 := by
  unfold collectClient
  cases hr : run p.2 with
  | error e => rfl
  | ok items =>
    rw [List.countP_eq_zero]
    intro s hs hrev
    rcases List.mem_flatMap.1 hs with ⟨r, hrm, hsr⟩
    have h1 := sampleNs_of_mem_collectRelease flags lookup r s hsr
    have h2 := isRev_imp_sampleNs s n hrev
    exact hne ((hcons items hr r hrm).symm.trans (h1.symm.trans h2))

theorem countP_rev_collect (flags : Flags) (lookup : String → Option String)
    (run : C → Except String (List Release)) (n : String) (c : C)
    (items : List Release) (hrun : run c = Except.ok items) :
    ∀ reg : List (String × C), (reg.map Prod.fst).Nodup → (n, c) ∈ reg →
      NsConsistent run reg →
      (collect flags lookup run reg).countP (isRevSampleIn n) = items.length := by
  intro reg
  induction reg with
  | nil => intro _ h; simp at h
  | cons p rest ih =>
    intro hnd hmem hcons
    simp only [List.map_cons, List.nodup_cons] at hnd
    rw [collect_cons, List.countP_append]
    rcases List.mem_cons.1 hmem with heq | hmem2
    · subst heq
      rw [countP_rev_collectClient flags lookup run c n items hrun
        (fun r hr => hcons (n, c) (List.mem_cons_self _ _) items hrun r hr)]
      have hz : (collect flags lookup run rest).countP (isRevSampleIn n) = 0 := by
        rw [List.countP_eq_zero]
        intro s hs hrev
        rcases sampleNs_of_mem_collect flags lookup run rest s
          (nsConsistent_of_cons run _ rest hcons) hs with ⟨q, hq, hns⟩
        exact hnd.1 (List.mem_map.2 ⟨q, hq, (hns.symm.trans (isRev_imp_sampleNs s n hrev)) ▸ rfl⟩)
      omega
    · have hn_mem : n ∈ rest.map Prod.fst := List.mem_map.2 ⟨(n, c), hmem2, rfl⟩
      have hne : p.1 ≠ n := fun h => hnd.1 (h ▸ hn_mem)
      rw [countP_rev_client_zero flags lookup run p n
        (fun its hits r hr => hcons p (List.mem_cons_self _ _) its hits r hr) hne,
        ih hnd.2 hmem2 (nsConsistent_of_cons run p rest hcons)]
      omega

theorem nodup_key_inj :
    ∀ reg : List (String × C), (reg.map Prod.fst).Nodup →
      ∀ p ∈ reg, ∀ q ∈ reg, p.1 = q.1 → p = q := by
  intro reg
  induction reg with
  | nil => intro _ p hp; simp at hp
  | cons a rest ih =>
    intro hnd p hp q hq heq
    simp only [List.map_cons, List.nodup_cons] at hnd
    rcases List.mem_cons.1 hp with hp1 | hp2 <;> rcases List.mem_cons.1 hq with hq1 | hq2
    · rw [hp1, hq1]
    · exact absurd (List.mem_map.2 ⟨q, hq2, (hp1 ▸ heq).symm⟩) hnd.1
    · exact absurd (List.mem_map.2 ⟨p, hp2, (hq1 ▸ heq)⟩) hnd.1
    · exact ih hnd.2 p hp2 q hq2 heq

/-! ## Registry lemmas -/

theorem keys_cmapRemove_ne (reg : List (String × C)) (k : String) :
    ∀ p ∈ cmapRemove reg k, p.1 ≠ k := by
  intro p hp
  have h := List.of_mem_filter hp
  exact bne_iff_ne.1 h

theorem cmapGet_cmapRemove_self (reg : List (String × C)) (k : String) :
    cmapGet (cmapRemove reg k) k = Option.none := by
  unfold cmapGet
  have h : (cmapRemove reg k).find? (fun p => p.1 == k) = Option.none := by
    rw [List.find?_eq_none]
    intro p hp
    simp only [beq_iff_eq]
    exact keys_cmapRemove_ne reg k p hp
  rw [h]
  rfl

theorem cmapGet_cmapSet_self (reg : List (String × C)) (k : String) (v : C) :
    cmapGet (cmapSet reg k v) k = Option.some v := by
  unfold cmapGet cmapSet
  rw [List.find?_cons_of_pos _ (by simp)]
  rfl

theorem handleEvent_removed (connectNs : String → Option C) (reg : List (String × C))
    (n : String) :
    handleEvent connectNs reg (NsEvent.removed n) = cmapRemove reg n := rfl

theorem handleEvent_added_none (connectNs : String → Option C) (reg : List (String × C))
    (n : String) (h : connectNs n = Option.none) :
    handleEvent connectNs reg (NsEvent.added n) = reg := by
  simp [handleEvent, connect, h]

theorem handleEvent_added_some (connectNs : String → Option C) (reg : List (String × C))
    (n : String) (c : C) (h : connectNs n = Option.some c) :
    handleEvent connectNs reg (NsEvent.added n) = cmapSet reg n c := by
  simp [handleEvent, connect, h]

/-! ## Congruence and lifting lemmas -/

theorem flatMap_congr_mem {α β : Type} :
    ∀ (l : List α) (f g : α → List β), (∀ a ∈ l, f a = g a) →
      l.flatMap f = l.flatMap g := by
  intro l f g h
  induction l with
  | nil => rfl
  | cons a rest ih =>
    rw [List.flatMap_cons, List.flatMap_cons, h a (List.mem_cons_self _ _),
      ih (fun x hx => h x (List.mem_cons_of_mem _ hx))]

theorem collectClient_info_filter (flags : Flags) (lookup : String → Option String)
    (run : C → Except String (List Release)) (c : C) :
    collectClient { flags with infoMetric := false } lookup run c =
      (collectClient { flags with infoMetric := true } lookup run c).filter
        (fun s => s.metricName != "helm_chart_info") := by
  unfold collectClient
  cases hr : run c with
  | error e => rfl
  | ok items =>
    rw [List.filter_flatMap]
    exact flatMap_congr_mem items _ _ (fun r _ => collectRelease_info_filter flags lookup r)

theorem collect_info_filter (flags : Flags) (lookup : String → Option String)
    (run : C → Except String (List Release)) (reg : List (String × C)) :
    collect { flags with infoMetric := false } lookup run reg =
      (collect { flags with infoMetric := true } lookup run reg).filter
        (fun s => s.metricName != "helm_chart_info") := by
  unfold collect
  rw [List.filter_flatMap]
  exact flatMap_congr_mem reg _ _ (fun p _ => collectClient_info_filter flags lookup run p.2)

theorem countP_info_collectClient_off (flags : Flags) (lookup : String → Option String)
    (run : C → Except String (List Release)) (c : C) (h : flags.infoMetric = false) :
    (collectClient flags lookup run c).countP
      (fun s => s.metricName == "helm_chart_info") = 0 := by
  unfold collectClient
  cases hr : run c with
  | error e => rfl
  | ok items =>
    rw [List.countP_flatMap]
    apply List.sum_eq_zero
    intro x hx
    rcases List.mem_map.1 hx with ⟨r, hr2, rfl⟩
    exact countP_info_collectRelease_off flags lookup r h

theorem countP_info_collect_off (flags : Flags) (lookup : String → Option String)
    (run : C → Except String (List Release)) (reg : List (String × C))
    (h : flags.infoMetric = false) :
    (collect flags lookup run reg).countP
      (fun s => s.metricName == "helm_chart_info") = 0 := by
  unfold collect
  rw [List.countP_flatMap]
  apply List.sum_eq_zero
  intro x hx
  rcases List.mem_map.1 hx with ⟨p, hp, rfl⟩
  exact countP_info_collectClient_off flags lookup run p.2 h

theorem map_stripLatest_collectClient (flags : Flags)
    (lookup lookup₂ : String → Option String)
    (run : C → Except String (List Release)) (c : C) :
    (collectClient flags lookup run c).map stripLatest =
      (collectClient flags lookup₂ run c).map stripLatest := by
  unfold collectClient
  cases hr : run c with
  | error e => rfl
  | ok items =>
    rw [List.map_flatMap, List.map_flatMap]
    exact flatMap_congr_mem items _ _
      (fun r _ => map_stripLatest_collectRelease flags lookup lookup₂ r)

theorem map_stripLatest_collect (flags : Flags)
    (lookup lookup₂ : String → Option String)
    (run : C → Except String (List Release)) (reg : List (String × C)) :
    (collect flags lookup run reg).map stripLatest =
      (collect flags lookup₂ run reg).map stripLatest := by
  unfold collect
  rw [List.map_flatMap, List.map_flatMap]
  exact flatMap_congr_mem reg _ _
    (fun p _ => map_stripLatest_collectClient flags lookup lookup₂ run p.2)

/-! ## Concrete-scenario lemmas -/

theorem wRun_nsConsistent : NsConsistent wRun wReg := by
  intro p hp items h r hr
  simp only [wReg, List.mem_cons, List.not_mem_nil, or_false] at hp
  rcases hp with h1 | h1 <;> subst h1
  · simp [wRun] at h
  · simp only [wRun, if_pos rfl] at h
    injection h with h2
    subst h2
    simp only [List.mem_singleton] at hr
    subst hr
    rfl

/-! ## Claim theorems -/

/-- C1 counterexample: the claim says the `helm_chart_timestamp` sample
value is the last-deployed time in epoch seconds, but `Collect` emits
`float64(updated)` where `updated = LastDeployed.Unix() * 1000`
(src/main.go lines 184 and 215).  For the release `sampleRel`, last
deployed at epoch second 1, the emitted timestamp sample has value 1000,
not 1. -/
theorem c1_timestamp_seconds_counterexample :
    ¬ ∀ s ∈ collectRelease allFlags lookupNone sampleRel,
        s.metricName = "helm_chart_timestamp" → s.value = sampleRel.lastDeployedUnix := by
  decide

/-- C1 (amended): for every release, when the timestamp-metric feature is
enabled a `helm_chart_timestamp` sample is emitted, and every
`helm_chart_timestamp` sample's numeric value equals the release's
last-deployed time expressed in epoch milliseconds (epoch seconds times
1000). -/
theorem c1_timestamp_value_millis (flags : Flags) (lookup : String → Option String)
    (item : Release) (h : flags.timestampMetric = true) :
    (∀ s ∈ collectRelease flags lookup item, s.metricName = "helm_chart_timestamp" →
        s.value = item.lastDeployedUnix * 1000) ∧
      ∃ s ∈ collectRelease flags lookup item,
        s.metricName = "helm_chart_timestamp" ∧ s.value = item.lastDeployedUnix * 1000 :=
  ⟨fun s hs hn => ts_shape_of_mem_collectRelease flags lookup item s hs hn,
   ⟨tsSample flags lookup item, ts_mem_collectRelease flags lookup item h, rfl, rfl⟩⟩

/-- C1 witness: the amended theorem applied to the concrete release
`sampleRel` with all features enabled. -/
theorem c1_timestamp_value_millis_witness :
    allFlags.timestampMetric = true ∧
      ((∀ s ∈ collectRelease allFlags lookupNone sampleRel,
          s.metricName = "helm_chart_timestamp" →
            s.value = sampleRel.lastDeployedUnix * 1000) ∧
        ∃ s ∈ collectRelease allFlags lookupNone sampleRel,
          s.metricName = "helm_chart_timestamp" ∧
            s.value = sampleRel.lastDeployedUnix * 1000) :=
  ⟨rfl, c1_timestamp_value_millis allFlags lookupNone sampleRel rfl⟩

/-- C2: the info-sample value is determined by the fixed status table
(unknown=0, deployed=1, uninstalled=2, superseded=3, failed=-1,
uninstalling=5, pending-install=6, pending-upgrade=7,
pending-rollback=8); a status string outside the table yields the
default code 0 (the Go map zero value) and the mapping is total, and for
every release with the info metric enabled the emitted info sample
carries exactly `statusCodeMap` of the release's status string. -/
theorem c2_status_code_table :
    statusCodeMap "unknown" = 0 ∧ statusCodeMap "deployed" = 1 ∧
    statusCodeMap "uninstalled" = 2 ∧ statusCodeMap "superseded" = 3 ∧
    statusCodeMap "failed" = -1 ∧ statusCodeMap "uninstalling" = 5 ∧
    statusCodeMap "pending-install" = 6 ∧ statusCodeMap "pending-upgrade" = 7 ∧
    statusCodeMap "pending-rollback" = 8 ∧
    (∀ s : String, s ∉ statusKeys → statusCodeMap s = 0) ∧
    (∀ (flags : Flags) (lookup : String → Option String) (item : Release),
      flags.infoMetric = true →
        (∀ s ∈ collectRelease flags lookup item, s.metricName = "helm_chart_info" →
            s.value = statusCodeMap item.statusString) ∧
        ∃ s ∈ collectRelease flags lookup item,
          s.metricName = "helm_chart_info" ∧
            s.value = statusCodeMap item.statusString) := by
  refine ⟨rfl, rfl, rfl, rfl, rfl, rfl, rfl, rfl, rfl, ?_, ?_⟩
  · intro s hs
    unfold statusCodeMap
    split <;> simp_all [statusKeys]
  · intro flags lookup item h
    exact ⟨fun s hs hn => info_shape_of_mem_collectRelease flags lookup item s hs hn,
      ⟨infoSample flags lookup item, info_mem_collectRelease flags lookup item h, rfl, rfl⟩⟩

/-- C2 witness: a release with status "failed" yields info value -1, the
unmapped status "bogus" yields the default code 0, and the concrete
failed release's info sample carries that value. -/
theorem c2_status_code_table_witness :
    statusCodeMap relFailed.statusString = -1 ∧ statusCodeMap "bogus" = 0 ∧
      (infoSample allFlags lookupNone relFailed).value =
        statusCodeMap relFailed.statusString ∧
      infoSample allFlags lookupNone relFailed ∈
        collectRelease allFlags lookupNone relFailed := by
  obtain ⟨h1, h2, h3, h4, h5, h6, h7, h8, h9, hdef, hinfo⟩ := c2_status_code_table
  obtain ⟨hall, _⟩ := hinfo allFlags lookupNone relFailed rfl
  exact ⟨h5, hdef "bogus" (by decide),
    hall (infoSample allFlags lookupNone relFailed)
      (info_mem_collectRelease allFlags lookupNone relFailed rfl) rfl,
    info_mem_collectRelease allFlags lookupNone relFailed rfl⟩

/-- C3: for every registry entry (n, c) whose listing succeeds with k
releases, the scrape emits exactly k revision-count samples carrying
namespace label n, each with value the release's revision number and
exactly the labels chart, release name and namespace; the flag set is
universally quantified, so the emission is not gated by any feature
toggle. -/
theorem c3_revision_count_exact (flags : Flags) (lookup : String → Option String)
    (run : C → Except String (List Release)) (reg : List (String × C))
    (n : String) (c : C) (items : List Release)
    (hnd : (reg.map Prod.fst).Nodup) (hmem : (n, c) ∈ reg)
    (hrun : run c = Except.ok items) (hcons : NsConsistent run reg) :
    (collect flags lookup run reg).countP (isRevSampleIn n) = items.length ∧
    ∀ s ∈ collect flags lookup run reg, isRevSampleIn n s = true →
      ∃ r ∈ items, s.value = r.version ∧
        s.labels = [r.chartName, r.name, r.nsName] := by
  refine ⟨countP_rev_collect flags lookup run n c items hrun reg hnd hmem hcons, ?_⟩
  intro s hs hrev
  rcases (mem_collect_iff flags lookup run reg s).1 hs with ⟨p, hp, hsc⟩
  rcases (mem_collectClient_iff flags lookup run p.2 s).1 hsc with ⟨its, hrun2, r, hr, hsr⟩
  have hname : s.metricName = "helm_chart_all_releases_total" := by
    simp only [isRevSampleIn, Bool.and_eq_true, beq_iff_eq] at hrev
    exact hrev.1
  have hshape := rev_shape_of_mem_collectRelease flags lookup r s hsr hname
  have hns : r.nsName = p.1 := hcons p hp its hrun2 r hr
  have hsn : sampleNs s = n := isRev_imp_sampleNs s n hrev
  have hsn2 : sampleNs s = r.nsName := sampleNs_of_mem_collectRelease flags lookup r s hsr
  have hp1 : p.1 = n := by rw [← hns, ← hsn2, hsn]
  have hpc : p = (n, c) := nodup_key_inj reg hnd p hp (n, c) hmem (by rw [hp1])
  subst hpc
  rw [hrun] at hrun2
  injection hrun2 with hits
  subst hits
  exact ⟨r, hr, hshape⟩

/-- C3 witness: in the two-namespace registry `wReg` ("bad" fails,
"prod" lists one release) the scrape emits exactly one revision-count
sample for namespace "prod", and that sample carries the release's
revision and labels. -/
theorem c3_revision_count_exact_witness :
    (collect allFlags lookupNone wRun wReg).countP (isRevSampleIn "prod") = 1 ∧
      ∃ r ∈ [sampleRel], (revSample sampleRel).value = r.version ∧
        (revSample sampleRel).labels = [r.chartName, r.name, r.nsName] := by
  have main := c3_revision_count_exact allFlags lookupNone wRun wReg "prod" 1 [sampleRel]
    (by decide) (by decide) rfl wRun_nsConsistent
  exact ⟨main.1, main.2 (revSample sampleRel) (by decide) (by decide)⟩

/-- C4: if the listing for the client of one namespace fails, every other
registry entry contributes exactly the samples it would contribute had
that listing succeeded, and those samples are all present in the scrape
output: the failure is isolated and the scrape does not abort. -/
theorem c4_listing_failure_isolated (flags : Flags) (lookup : String → Option String)
    (run₁ run₂ : C → Except String (List Release)) (cN : C) (e : String)
    (reg : List (String × C))
    (_hfail : run₁ cN = Except.error e)
    (hagree : ∀ c, c ≠ cN → run₁ c = run₂ c) :
    ∀ p ∈ reg, p.2 ≠ cN →
      collectClient flags lookup run₁ p.2 = collectClient flags lookup run₂ p.2 ∧
      ∀ s ∈ collectClient flags lookup run₁ p.2, s ∈ collect flags lookup run₁ reg := by
  intro p hp hne
  constructor
  · unfold collectClient
    rw [hagree p.2 hne]
  · intro s hs
    exact (mem_collect_iff flags lookup run₁ reg s).2 ⟨p, hp, hs⟩

/-- C4 witness: in `wReg` the client of "bad" fails under `wRun` and
succeeds under `wRunOk`; the samples of "prod" are identical under both,
and the revision sample of "prod" is emitted by the failing scrape. -/
theorem c4_listing_failure_isolated_witness :
    collectClient allFlags lookupNone wRun 1 = collectClient allFlags lookupNone wRunOk 1 ∧
      revSample sampleRel ∈ collect allFlags lookupNone wRun wReg := by
  have main := c4_listing_failure_isolated allFlags lookupNone wRun wRunOk 0 "boom" wReg
    rfl (fun c hc => by unfold wRunOk; rw [if_neg hc]) ("prod", 1) (by decide) (by decide)
  exact ⟨main.1, main.2 (revSample sampleRel) (by decide)⟩

/-- C5: a namespace-added event followed by a namespace-removed event for
the same name leaves the registry with no entry for that name; under
namespace-consistent listings a subsequent scrape emits zero samples
whose namespace is that name; and an added event for a namespace already
present overwrites the existing entry (the new client is installed, not
rejected). -/
theorem c5_registry_convergence (connectNs : String → Option C)
    (reg : List (String × C)) (n : String) (flags : Flags)
    (lookup : String → Option String) (run : C → Except String (List Release)) :
    cmapGet (handleEvent connectNs (handleEvent connectNs reg (NsEvent.added n))
        (NsEvent.removed n)) n = Option.none ∧
    (NsConsistent run (handleEvent connectNs (handleEvent connectNs reg (NsEvent.added n))
        (NsEvent.removed n)) →
      (collect flags lookup run (handleEvent connectNs
          (handleEvent connectNs reg (NsEvent.added n))
          (NsEvent.removed n))).countP (fun s => sampleNs s == n) = 0) ∧
    ∀ c, connectNs n = Option.some c →
      cmapGet (handleEvent connectNs reg (NsEvent.added n)) n = Option.some c := by
  refine ⟨?_, ?_, ?_⟩
  · rw [handleEvent_removed]
    exact cmapGet_cmapRemove_self _ n
  · intro hcons
    exact countP_ns_collect_zero flags lookup run _ n hcons
      (fun p hp => keys_cmapRemove_ne _ n p hp)
  · intro c hc
    rw [handleEvent_added_some connectNs reg n c hc]
    exact cmapGet_cmapSet_self reg n c

/-- C5 witness: the convergence theorem applied to a concrete registry
holding "keep", adding then removing "gone", with a connector that
always succeeds with client 7 and listings that return no releases. -/
theorem c5_registry_convergence_witness :
    cmapGet (handleEvent (fun _ => Option.some 7)
        (handleEvent (fun _ => Option.some 7) [("keep", 3)] (NsEvent.added "gone"))
        (NsEvent.removed "gone")) "gone" = Option.none ∧
    (collect allFlags lookupNone (fun _ => Except.ok [])
        (handleEvent (fun _ => Option.some 7)
          (handleEvent (fun _ => Option.some 7) [("keep", 3)] (NsEvent.added "gone"))
          (NsEvent.removed "gone"))).countP (fun s => sampleNs s == "gone") = 0 ∧
    cmapGet (handleEvent (fun _ => Option.some 7) [("keep", 3)]
        (NsEvent.added "gone")) "gone" = Option.some 7 := by
  have main := c5_registry_convergence (fun _ => Option.some (7 : Nat)) [("keep", 3)]
    "gone" allFlags lookupNone (fun _ => Except.ok [])
  refine ⟨main.1, main.2.1 ?_, main.2.2 7 rfl⟩
  intro p hp items h r hr
  injection h with h2
  subst h2
  simp at hr

/-- C6: with the info-metric switch off a scrape emits no
`helm_chart_info` samples, and the output is exactly the info-on output
with the `helm_chart_info` samples removed — so the revision-count
samples and (if enabled) the timestamp samples are unchanged. -/
theorem c6_info_toggle (flags : Flags) (lookup : String → Option String)
    (run : C → Except String (List Release)) (reg : List (String × C)) :
    (collect { flags with infoMetric := false } lookup run reg).countP
        (fun s => s.metricName == "helm_chart_info") = 0 ∧
    collect { flags with infoMetric := false } lookup run reg =
      (collect { flags with infoMetric := true } lookup run reg).filter
        (fun s => s.metricName != "helm_chart_info") :=
  ⟨countP_info_collect_off { flags with infoMetric := false } lookup run reg rfl,
   collect_info_filter flags lookup run reg⟩

/-- C7: the metric names and numeric values a release contributes never
depend on the chart-registry lookup; a release always contributes at
least one sample; and when latest-version resolution is disabled or the
lookup fails, every emitted sample has an empty latestVersion label
(position 6; the revision-count sample has no such label and reads as
empty). -/
theorem c7_latest_resolution_harmless (flags : Flags)
    (lookup lookup₂ : String → Option String) (item : Release)
    (h : flags.fetchLatest = false ∨ lookup item.chartName = Option.none) :
    ((collectRelease flags lookup item).map (fun s => s.metricName) =
        (collectRelease flags lookup₂ item).map (fun s => s.metricName)) ∧
    ((collectRelease flags lookup item).map (fun s => s.value) =
        (collectRelease flags lookup₂ item).map (fun s => s.value)) ∧
    collectRelease flags lookup item ≠ [] ∧
    (collectRelease flags lookup item).countP
      (fun s => s.labels.getD 6 "" != "") = 0 :=
  ⟨map_name_collectRelease flags lookup lookup₂ item,
   map_value_collectRelease flags lookup lookup₂ item,
   collectRelease_ne_nil flags lookup item,
   countP_latest_collectRelease flags lookup item h⟩

/-- C7 witness: the theorem applied to `sampleRel` with an
always-failing lookup against an always-succeeding one. -/
theorem c7_latest_resolution_harmless_witness :
    ((collectRelease allFlags lookupNone sampleRel).map (fun s => s.metricName) =
        (collectRelease allFlags (fun _ => Option.some "9.9.9") sampleRel).map
          (fun s => s.metricName)) ∧
    ((collectRelease allFlags lookupNone sampleRel).map (fun s => s.value) =
        (collectRelease allFlags (fun _ => Option.some "9.9.9") sampleRel).map
          (fun s => s.value)) ∧
    collectRelease allFlags lookupNone sampleRel ≠ [] ∧
    (collectRelease allFlags lookupNone sampleRel).countP
      (fun s => s.labels.getD 6 "" != "") = 0 :=
  c7_latest_resolution_harmless allFlags lookupNone (fun _ => Option.some "9.9.9")
    sampleRel (Or.inr rfl)

/-- C8: if building the client for a namespace fails, the added event
leaves the registry exactly as it was — nothing is inserted and the
handler returns normally. -/
theorem c8_connect_failure_unmonitored (connectNs : String → Option C) (n : String)
    (reg : List (String × C)) (h : connectNs n = Option.none) :
    handleEvent connectNs reg (NsEvent.added n) = reg ∧
    connect (connectNs n) n reg = reg := by
  constructor
  · exact handleEvent_added_none connectNs reg n h
  · rw [h]
    rfl

/-- C8 witness: a failing connector for "ns" leaves the one-entry
registry unchanged. -/
theorem c8_connect_failure_unmonitored_witness :
    handleEvent (fun _ => (Option.none : Option Nat)) [("a", 1)]
        (NsEvent.added "ns") = [("a", 1)] ∧
    connect ((fun _ => (Option.none : Option Nat)) "ns") "ns" [("a", 1)] = [("a", 1)] :=
  c8_connect_failure_unmonitored (fun _ => Option.none) "ns" [("a", 1)] rfl

/-- C9: for a fixed registry and fixed listing results, the scrape output
is a pure function of those inputs; two scrapes differing only in the
chart-registry lookup produce sample lists that are identical after
blanking the latestVersion label — same metric names, same values, same
other labels. -/
theorem c9_scrape_deterministic (flags : Flags)
    (lookup₁ lookup₂ : String → Option String)
    (run : C → Except String (List Release)) (reg : List (String × C)) :
    (collect flags lookup₁ run reg).map stripLatest =
      (collect flags lookup₂ run reg).map stripLatest :=
  map_stripLatest_collect flags lookup₁ lookup₂ run reg

theorem collectRelease_count_flag (flags : Flags) (b₁ b₂ : Bool)
    (lookup : String → Option String) (item : Release) :
    collectRelease { flags with countAllReleasesMetric := b₁ } lookup item =
      collectRelease { flags with countAllReleasesMetric := b₂ } lookup item := by
  rcases flags with ⟨im, tm, cm, fl⟩
  rfl

theorem collectClient_count_flag (flags : Flags) (b₁ b₂ : Bool)
    (lookup : String → Option String) (run : C → Except String (List Release)) (c : C) :
    collectClient { flags with countAllReleasesMetric := b₁ } lookup run c =
      collectClient { flags with countAllReleasesMetric := b₂ } lookup run c := by
  unfold collectClient
  cases hr : run c with
  | error e => rfl
  | ok items =>
    exact flatMap_congr_mem items _ _
      (fun r _ => collectRelease_count_flag flags b₁ b₂ lookup r)

/-- C10: the count-all-releases-metric flag is never read by `Collect`:
two scrapes differing only in that flag produce identical outputs. -/
theorem c10_count_flag_no_effect (flags : Flags) (b₁ b₂ : Bool)
    (lookup : String → Option String) (run : C → Except String (List Release))
    (reg : List (String × C)) :
    collect { flags with countAllReleasesMetric := b₁ } lookup run reg =
      collect { flags with countAllReleasesMetric := b₂ } lookup run reg := by
  unfold collect
  exact flatMap_congr_mem reg _ _
    (fun p _ => collectClient_count_flag flags b₁ b₂ lookup run p.2)

end HelmExporter
